import Mathlib

/-!
# Route progress and proximity logic of `RouteManager.jsx`

A shallow embedding of the state handlers of the `RouteManager` React component
(`src/components/ui/RouteManager/RouteManager.jsx`) and theorems about them.

Modelling conventions.

* The component's `useState` cells are the fields of `State`; a handler is a function
  from the state of the render in which it was created to the state of the next render.
* A JavaScript `Set` of indices is the list of its elements in insertion order.
* Array indices are `Int` (the handlers perform no check on the index they receive).
* A JavaScript number is a `JSNumber`: `NaN`, the two infinities, or a finite value given
  by the rational it denotes. The result of `+`, `-`, `*` and `/` on finite values is
  rounded to the nearest binary64 value, ties to even (`JSNumber.ofRat`); `-0` is
  identified with `+0`.
* `Math.sin`, `Math.cos`, `Math.sqrt`, `Math.atan2` and `Math.PI` are platform primitives;
  they are the fields of `JSMath`, a parameter of `calculateDistance`.
  What a theorem needs of them is the hypothesis `SpecialValues`.
-/

namespace RouteManager

/-! ## JavaScript numbers -/

/-- A JavaScript number: `NaN`, `Infinity`, `-Infinity` or a finite value. -/
inductive JSNumber where
  | nan : JSNumber
  | posInf : JSNumber
  | negInf : JSNumber
  | fin (q : ℚ) : JSNumber
  deriving DecidableEq

namespace JSNumber

/-- The nearest integer to `q`, ties to the even one. -/
def roundTiesToEven (q : ℚ) : ℤ :=
  let f := ⌊q⌋
  if q - f < 1 / 2 then f
  else if 1 / 2 < q - f then f + 1
  else if f % 2 = 0 then f else f + 1

/-- The binary64 value nearest to the rational `q`, ties to even: 53 significant bits,
exponents from `-1022` (below it the spacing stays `2 ^ (-1074)`), and an infinity when
the rounded magnitude reaches `2 ^ 1024`. -/
def ofRat (q : ℚ) : JSNumber :=
  if q = 0 then fin 0
  else
    let e : ℤ := max (Int.log 2 |q|) (-1022)
    let ulp : ℚ := (2 : ℚ) ^ (e - 52)
    let r : ℚ := roundTiesToEven (q / ulp) * ulp
    if (2 : ℚ) ^ (1024 : ℤ) ≤ |r| then (if 0 < q then posInf else negInf) else fin r

/-- Unary minus. -/
def neg : JSNumber → JSNumber
  | nan => nan
  | posInf => negInf
  | negInf => posInf
  | fin q => fin (-q)

/-- The operator `+` on numbers. -/
def add : JSNumber → JSNumber → JSNumber
  | nan, _ => nan
  | _, nan => nan
  | posInf, negInf => nan
  | negInf, posInf => nan
  | posInf, _ => posInf
  | _, posInf => posInf
  | negInf, _ => negInf
  | _, negInf => negInf
  | fin a, fin b => ofRat (a + b)

/-- The operator `-` on numbers. -/
def sub (x y : JSNumber) : JSNumber := add x (neg y)

/-- The sign of a number that is not `NaN`: `1`, `0` or `-1`. -/
def sgn : JSNumber → Int
  | nan => 0
  | posInf => 1
  | negInf => -1
  | fin q => if 0 < q then 1 else if q < 0 then -1 else 0

/-- The operator `*` on numbers: `0 * Infinity` is `NaN`. -/
def mul : JSNumber → JSNumber → JSNumber
  | nan, _ => nan
  | _, nan => nan
  | fin a, fin b => ofRat (a * b)
  | x, y =>
    if sgn x * sgn y = 0 then nan
    else if 0 < sgn x * sgn y then posInf else negInf

/-- The operator `/` on numbers: `0 / 0` and `Infinity / Infinity` are `NaN`, and a
non-zero finite number divided by zero is an infinity. -/
def div : JSNumber → JSNumber → JSNumber
  | nan, _ => nan
  | _, nan => nan
  | fin a, fin b =>
    if b = 0 then (if a = 0 then nan else if 0 < a then posInf else negInf)
    else ofRat (a / b)
  | fin _, _ => fin 0
  | posInf, fin b => if b < 0 then negInf else posInf
  | negInf, fin b => if b < 0 then posInf else negInf
  | _, _ => nan

/-- The comparison `x <= y`; it is `false` as soon as one side is `NaN`. -/
def le : JSNumber → JSNumber → Bool
  | nan, _ => false
  | _, nan => false
  | negInf, _ => true
  | _, posInf => true
  | posInf, _ => false
  | _, negInf => false
  | fin a, fin b => decide (a ≤ b)

/-- The function `Math.round`: the nearest integer, ties towards `+Infinity`. -/
def round : JSNumber → JSNumber
  | fin q => fin (⌊q + 1 / 2⌋ : Int)
  | x => x

/-- The truthiness of a number: `NaN` and zero are falsy. -/
def truthy : JSNumber → Bool
  | nan => false
  | fin q => decide (q ≠ 0)
  | _ => true

end JSNumber

/-- The platform's `Math` object, as far as `calculateDistance` uses it. -/
structure JSMath where
  PI : JSNumber
  sin : JSNumber → JSNumber
  cos : JSNumber → JSNumber
  sqrt : JSNumber → JSNumber
  atan2 : JSNumber → JSNumber → JSNumber

/-! ## Data model -/

/-- A place of a route. A field that is `none` is `undefined` on the object. Only the
fields the handlers read are kept. -/
structure Place where
  name : Option String
  latitude : Option JSNumber
  longitude : Option JSNumber
  deriving DecidableEq

/-- The value of `useGeolocation().location` when it is not `null`. A field that is
missing enters the arithmetic of `calculateDistance` as `NaN`. -/
structure Location where
  latitude : JSNumber
  longitude : JSNumber
  deriving DecidableEq

/-- A route: the handlers read only `route.places`. -/
structure Route where
  places : List Place
  deriving DecidableEq

/-- The argument of `onChallengeComplete`: the handler reads `challengeData.place.name`. -/
structure ChallengeData where
  place : Place
  deriving DecidableEq

/-- The `useState` cells of the component. -/
structure State where
  route : Option Route
  selectedPlace : Option Place
  loading : Bool
  error : Option String
  completedPlaces : List Int
  currentPlaceIndex : Int
  showRouteSelector : Bool
  showChallengeModal : Bool
  challengePlace : Option Place
  deriving DecidableEq

/-- The state of the first render. -/
def initialState : State where
  route := none
  selectedPlace := none
  loading := false
  error := none
  completedPlaces := []
  currentPlaceIndex := 0
  showRouteSelector := true
  showChallengeModal := false
  challengePlace := none

/-! ## The `Set` of completed indices -/

/-- The set `new Set([...prev, x])`: `x` is appended unless it is already a member. -/
def setAdd (prev : List Int) (x : Int) : List Int :=
  if x ∈ prev then prev else prev ++ [x]

/-- The set `new Set(prev)` after `delete(x)`. -/
def setDelete (prev : List Int) (x : Int) : List Int :=
  prev.filter (fun y => y ≠ x)

/-- The element `places[index]` of an array; `none` is `undefined`. -/
def placeAt (places : List Place) (index : Int) : Option Place :=
  if 0 ≤ index then places[index.toNat]? else none

/-! ## Handlers -/

/-- The handler `handleGenerateRoute`, given what `getMadridPlacesForMap()` returns
(`none` when it throws, which the `catch` block turns into an error message). -/
def handleGenerateRoute (s : State) (madridPlaces : Option (List Place)) : State :=
  match madridPlaces with
  | some places =>
    { s with
      error := none
      route := some { places := places }
      selectedPlace := none
      completedPlaces := []
      currentPlaceIndex := 0
      showRouteSelector := false
      loading := false }
  | none =>
    { s with error := some "Error al generar la ruta de Madrid", loading := false }

/-- The handler `handlePlaceSelect`. -/
def handlePlaceSelect (s : State) (place : Place) : State :=
  { s with selectedPlace := some place }

/-- The handler `handleRouteSelect`. -/
def handleRouteSelect (s : State) (selectedRoute : Route) : State :=
  { s with
    route := some selectedRoute
    showRouteSelector := false
    selectedPlace := none
    completedPlaces := []
    currentPlaceIndex := 0 }

/-- The function `calculateDistance`: the haversine formula with `R = 6371e3`. -/
def calculateDistance (M : JSMath) (lat1 lon1 lat2 lon2 : JSNumber) : JSNumber :=
  let R := JSNumber.fin 6371000
  let φ1 := JSNumber.div (JSNumber.mul lat1 M.PI) (JSNumber.fin 180)
  let φ2 := JSNumber.div (JSNumber.mul lat2 M.PI) (JSNumber.fin 180)
  let Δφ := JSNumber.div (JSNumber.mul (JSNumber.sub lat2 lat1) M.PI) (JSNumber.fin 180)
  let Δl := JSNumber.div (JSNumber.mul (JSNumber.sub lon2 lon1) M.PI) (JSNumber.fin 180)
  let a :=
    JSNumber.add
      (JSNumber.mul (M.sin (JSNumber.div Δφ (JSNumber.fin 2)))
        (M.sin (JSNumber.div Δφ (JSNumber.fin 2))))
      (JSNumber.mul
        (JSNumber.mul (JSNumber.mul (M.cos φ1) (M.cos φ2))
          (M.sin (JSNumber.div Δl (JSNumber.fin 2))))
        (M.sin (JSNumber.div Δl (JSNumber.fin 2))))
  let c :=
    JSNumber.mul (JSNumber.fin 2)
      (M.atan2 (M.sqrt a) (M.sqrt (JSNumber.sub (JSNumber.fin 1) a)))
  JSNumber.mul R c

/-- The function `isNearPlace`; `location` is the value of the geolocation hook. -/
def isNearPlace (M : JSMath) (location : Option Location) (place : Place) : Bool :=
  match location, place.latitude, place.longitude with
  | some loc, some lat, some lon =>
    if !lat.truthy || !lon.truthy then false
    else
      (calculateDistance M loc.latitude loc.longitude lat lon).le (JSNumber.fin 100)
  | _, _, _ => false

/-- The handler `handleStartChallenge`. -/
def handleStartChallenge (s : State) (place : Place) : State :=
  { s with challengePlace := some place, showChallengeModal := true }

/-- The handler `handleChallengeComplete`. The result is `none` when `route` is `null`:
reading `route.places` throws before any state is set. -/
def handleChallengeComplete (s : State) (challengeData : ChallengeData) : Option State :=
  match s.route with
  | none => none
  | some r =>
    let completed :=
      match r.places.findIdx? (fun p => p.name == challengeData.place.name) with
      | some placeIndex => setAdd s.completedPlaces (placeIndex : Int)
      | none => s.completedPlaces
    some { s with
      completedPlaces := completed
      showChallengeModal := false
      challengePlace := none }

/-- The handler `handleCompletePlace`. With `route` equal to `null` the bound
`route?.places.length - 1` is `NaN` and the comparison is `false`. -/
def handleCompletePlace (s : State) (placeIndex : Int) : State :=
  let advance : Bool :=
    decide (placeIndex = s.currentPlaceIndex) &&
      (match s.route with
        | some r => decide (placeIndex < (r.places.length : Int) - 1)
        | none => false)
  { s with
    completedPlaces := setAdd s.completedPlaces placeIndex
    currentPlaceIndex := if advance then placeIndex + 1 else s.currentPlaceIndex }

/-- The handler `handleUncompletePlace`. -/
def handleUncompletePlace (s : State) (placeIndex : Int) : State :=
  { s with completedPlaces := setDelete s.completedPlaces placeIndex }

/-- The function `getRouteProgress`. An empty array is truthy, so the guard lets a route
without places through to the division. A size and a length are below `2 ^ 32`, hence
binary64 values. -/
def getRouteProgress (s : State) : JSNumber :=
  match s.route with
  | none => JSNumber.fin 0
  | some r =>
    JSNumber.round
      (JSNumber.mul
        (JSNumber.div (JSNumber.fin s.completedPlaces.length) (JSNumber.fin r.places.length))
        (JSNumber.fin 100))

/-- The function `getNextPlace`; the inner `none` is `undefined`, the outer one `null`. -/
def getNextPlace (s : State) : Option (Option Place) :=
  match s.route with
  | none => none
  | some r => some (placeAt r.places s.currentPlaceIndex)

/-- The function `getCompletedPlaces`; an entry `none` is `undefined`. -/
def getCompletedPlaces (s : State) : List (Option Place) :=
  match s.route with
  | none => []
  | some r => s.completedPlaces.map (fun index => placeAt r.places index)

/-- The handler of the modal's `onClose`. -/
def handleCloseModal (s : State) : State :=
  { s with showChallengeModal := false, challengePlace := none }

/-- The handler of the button "Cambiar ruta". -/
def handleChangeRoute (s : State) : State :=
  { s with showRouteSelector := true }

/-! ## The challenge button of the rendered list -/

/-- Whether the list item of `place` at `index` shows a button "Iniciar Desafío": the
first item shows it unless completed, the others when moreover `isNearPlace` holds. -/
def challengeButtonShown (M : JSMath) (location : Option Location) (s : State)
    (index : Nat) (place : Place) : Bool :=
  let isCompleted : Bool := decide ((index : Int) ∈ s.completedPlaces)
  (decide (index = 0) && !isCompleted) ||
    (decide (0 < index) && !isCompleted && isNearPlace M location place)

/-- A click on the button "Iniciar Desafío" of the list item at `index`. The list is
rendered when a route is set and the route selector is hidden; a click on a button that
is not rendered is no event at all. -/
def clickStartChallenge (M : JSMath) (location : Option Location) (s : State)
    (index : Nat) : State :=
  match s.route with
  | none => s
  | some r =>
    if s.showRouteSelector then s
    else
      match r.places[index]? with
      | none => s
      | some place =>
        if challengeButtonShown M location s index place then handleStartChallenge s place
        else s

/-! ## Reachable states -/

/-- The events of the component. -/
inductive Event where
  | generateRoute (madridPlaces : Option (List Place))
  | placeSelect (place : Place)
  | routeSelect (selectedRoute : Route)
  | startChallenge (place : Place)
  | challengeComplete (challengeData : ChallengeData)
  | completePlace (placeIndex : Int)
  | uncompletePlace (placeIndex : Int)
  | closeModal
  | changeRoute

/-- The state after an event; an event whose handler throws leaves the state as it is. -/
def step (s : State) : Event → State
  | .generateRoute madridPlaces => handleGenerateRoute s madridPlaces
  | .placeSelect place => handlePlaceSelect s place
  | .routeSelect selectedRoute => handleRouteSelect s selectedRoute
  | .startChallenge place => handleStartChallenge s place
  | .challengeComplete challengeData => (handleChallengeComplete s challengeData).getD s
  | .completePlace placeIndex => handleCompletePlace s placeIndex
  | .uncompletePlace placeIndex => handleUncompletePlace s placeIndex
  | .closeModal => handleCloseModal s
  | .changeRoute => handleChangeRoute s

/-- The state after a sequence of events, from `s`. -/
def run (s : State) (events : List Event) : State :=
  events.foldl step s

/-- The invariant of the cursor: with a non-empty route, `0 <= currentPlaceIndex` and
`currentPlaceIndex < route.places.length`. -/
def CursorInRange (s : State) : Prop :=
  ∀ r, s.route = some r → r.places ≠ [] →
    0 ≤ s.currentPlaceIndex ∧ s.currentPlaceIndex < (r.places.length : Int)

/-! ## Sample data -/

/-- A place named `name` at the given coordinates. -/
def samplePlace (name : String) (lat lon : ℚ) : Place where
  name := some name
  latitude := some (JSNumber.fin lat)
  longitude := some (JSNumber.fin lon)

/-- The first place of the sample route. -/
def puertaDelSol : Place := samplePlace "Puerta del Sol" (404168 / 10000) (-37038 / 10000)

/-- The second place of the sample route. -/
def plazaMayor : Place := samplePlace "Plaza Mayor" (404154 / 10000) (-37074 / 10000)

/-- The third place of the sample route. -/
def palacioReal : Place := samplePlace "Palacio Real" (404180 / 10000) (-37142 / 10000)

/-- A route of three places in Madrid. -/
def sampleRoute : Route where
  places := [puertaDelSol, plazaMayor, palacioReal]

/-- The sample route just selected: nothing completed, cursor at `0`. -/
def sampleStart : State := handleRouteSelect initialState sampleRoute

/-- The report of a completed challenge at the first place of the sample route. -/
def sampleChallengeData : ChallengeData where
  place := puertaDelSol

/-- The sample route of forty copies of one place with the first twenty-three completed. -/
def sampleLongRun : State :=
  { initialState with
    route := some { places := List.replicate 40 puertaDelSol }
    showRouteSelector := false
    completedPlaces := (List.range 23).map Int.ofNat }

/-! ## The `Math` object -/

/-- The value of `Math.PI`: the binary64 number nearest to π. -/
def ecmaPI : JSNumber := JSNumber.fin (884279719003555 / 281474976710656)

/-- The values of the `Math` functions that `calculateDistance` meets when its two
coordinates are identical. ECMAScript fixes `Math.sin(+0) = +0`, `Math.cos` of an infinity
`= NaN`, `Math.sqrt(+0) = +0`, `Math.sqrt(NaN) = NaN`, `Math.atan2(+0, x) = +0` for
`x > 0` and `Math.atan2(NaN, NaN) = NaN`. Two more hold in every implementation: the
cosine of a finite number is a finite number of magnitude at most `1`, and
`Math.sqrt(1) = 1`. -/
structure SpecialValues (M : JSMath) : Prop where
  pi : M.PI = ecmaPI
  sin_zero : M.sin (JSNumber.fin 0) = JSNumber.fin 0
  cos_fin : ∀ x : ℚ, ∃ c : ℚ, M.cos (JSNumber.fin x) = JSNumber.fin c ∧ |c| ≤ 1
  cos_posInf : M.cos JSNumber.posInf = JSNumber.nan
  cos_negInf : M.cos JSNumber.negInf = JSNumber.nan
  sqrt_zero : M.sqrt (JSNumber.fin 0) = JSNumber.fin 0
  sqrt_one : M.sqrt (JSNumber.fin 1) = JSNumber.fin 1
  sqrt_nan : M.sqrt JSNumber.nan = JSNumber.nan
  atan2_zero_one : M.atan2 (JSNumber.fin 0) (JSNumber.fin 1) = JSNumber.fin 0
  atan2_nan : M.atan2 JSNumber.nan JSNumber.nan = JSNumber.nan

/-- A `Math` object that has the values of `SpecialValues` and arbitrary values at the
other arguments: it shows that `SpecialValues` can be met. -/
def tableMath : JSMath where
  PI := ecmaPI
  sin := fun x =>
    match x with
    | JSNumber.fin q => if q = 0 then JSNumber.fin 0 else JSNumber.nan
    | _ => JSNumber.nan
  cos := fun x =>
    match x with
    | JSNumber.fin _ => JSNumber.fin 1
    | _ => JSNumber.nan
  sqrt := fun x =>
    match x with
    | JSNumber.fin q => if q = 0 then JSNumber.fin 0 else if q = 1 then JSNumber.fin 1
        else JSNumber.nan
    | JSNumber.posInf => JSNumber.posInf
    | _ => JSNumber.nan
  atan2 := fun y x =>
    match y, x with
    | JSNumber.fin a, JSNumber.fin b =>
      if a = 0 ∧ 0 < b then JSNumber.fin 0 else JSNumber.nan
    | _, _ => JSNumber.nan

/-- The binary64 value of the literal `40.4168`. -/
def latSol : ℚ := 5688158919359621 / 140737488355328

/-- The binary64 value of the literal `-3.7038`. -/
def lonSol : ℚ := -4170108074963711 / 1125899906842624

/-! ## Basic facts -/

theorem mem_setAdd (prev : List Int) (x y : Int) :
    y ∈ setAdd prev x ↔ y ∈ prev ∨ y = x := by
  unfold setAdd
  split_ifs with h
  · constructor
    · exact Or.inl
    · rintro (h1 | h1)
      · exact h1
      · exact h1 ▸ h
  · simp

theorem mem_setDelete (prev : List Int) (x y : Int) :
    y ∈ setDelete prev x ↔ y ∈ prev ∧ y ≠ x := by
  simp [setDelete]

theorem setDelete_setAdd_of_not_mem (prev : List Int) (x : Int) (h : x ∉ prev) :
    setDelete (setAdd prev x) x = prev := by
  simp only [setAdd, if_neg h, setDelete, List.filter_append]
  have h1 : prev.filter (fun y => decide (y ≠ x)) = prev := by
    rw [List.filter_eq_self]
    intro a ha
    have : a ≠ x := fun e => h (e ▸ ha)
    simpa using this
  rw [h1]
  simp

theorem setAdd_nodup (prev : List Int) (x : Int) (h : prev.Nodup) :
    (setAdd prev x).Nodup := by
  unfold setAdd
  split_ifs with hx
  · exact h
  · rw [List.nodup_append]
    refine ⟨h, List.nodup_singleton x, ?_⟩
    intro a ha hb
    simp only [List.mem_singleton] at hb
    exact hx (hb ▸ ha)

theorem handleCompletePlace_cursor (s : State) (placeIndex : Int) :
    (handleCompletePlace s placeIndex).currentPlaceIndex =
      if placeIndex = s.currentPlaceIndex ∧
          ∃ r, s.route = some r ∧ placeIndex < (r.places.length : Int) - 1
      then placeIndex + 1 else s.currentPlaceIndex := by
  unfold handleCompletePlace
  cases hr : s.route with
  | none => simp
  | some r =>
    by_cases h1 : placeIndex = s.currentPlaceIndex <;>
      by_cases h2 : placeIndex < (r.places.length : Int) - 1 <;> simp [h1, h2]

theorem handleCompletePlace_inRange (s : State) (placeIndex : Int) (h : CursorInRange s) :
    CursorInRange (handleCompletePlace s placeIndex) := by
  intro r hr hne
  have hr0 : s.route = some r := hr
  obtain ⟨h0, h1⟩ := h r hr0 hne
  rw [handleCompletePlace_cursor]
  split_ifs with hc
  · obtain ⟨he, r1, hr1, hlt⟩ := hc
    rw [hr0] at hr1
    cases hr1
    constructor <;> omega
  · exact ⟨h0, h1⟩

theorem handleUncompletePlace_inRange (s : State) (placeIndex : Int) (h : CursorInRange s) :
    CursorInRange (handleUncompletePlace s placeIndex) := h

theorem handleChallengeComplete_cursor (s t : State) (challengeData : ChallengeData)
    (h : handleChallengeComplete s challengeData = some t) :
    t.route = s.route ∧ t.currentPlaceIndex = s.currentPlaceIndex := by
  unfold handleChallengeComplete at h
  cases hr : s.route with
  | none => simp [hr] at h
  | some r =>
    simp only [hr, Option.some.injEq] at h
    subst h
    exact ⟨rfl, rfl⟩

theorem handleChallengeComplete_inRange (s t : State) (challengeData : ChallengeData)
    (ht : handleChallengeComplete s challengeData = some t) (h : CursorInRange s) :
    CursorInRange t := by
  obtain ⟨h1, h2⟩ := handleChallengeComplete_cursor s t challengeData ht
  intro r hr hne
  rw [h2]
  exact h r (h1 ▸ hr) hne

theorem handleRouteSelect_inRange (s : State) (selectedRoute : Route) :
    CursorInRange (handleRouteSelect s selectedRoute) := by
  intro r hr hne
  have hr0 : some selectedRoute = some r := hr
  cases hr0
  refine ⟨le_refl _, ?_⟩
  have : 0 < selectedRoute.places.length := List.length_pos.mpr hne
  show (0 : Int) < (selectedRoute.places.length : Int)
  omega

theorem handleGenerateRoute_some_inRange (s : State) (places : List Place) :
    CursorInRange (handleGenerateRoute s (some places)) := by
  intro r hr hne
  have hr0 : some (Route.mk places) = some r := hr
  cases hr0
  refine ⟨le_refl _, ?_⟩
  have : 0 < places.length := List.length_pos.mpr hne
  show (0 : Int) < (places.length : Int)
  omega

theorem handleGenerateRoute_inRange (s : State) (madridPlaces : Option (List Place))
    (h : CursorInRange s) : CursorInRange (handleGenerateRoute s madridPlaces) := by
  cases madridPlaces with
  | none => exact h
  | some places => exact handleGenerateRoute_some_inRange s places

theorem step_inRange (s : State) (e : Event) (h : CursorInRange s) :
    CursorInRange (step s e) := by
  cases e with
  | generateRoute madridPlaces => exact handleGenerateRoute_inRange s madridPlaces h
  | placeSelect place => exact h
  | routeSelect selectedRoute => exact handleRouteSelect_inRange s selectedRoute
  | startChallenge place => exact h
  | challengeComplete challengeData =>
    show CursorInRange ((handleChallengeComplete s challengeData).getD s)
    cases ht : handleChallengeComplete s challengeData with
    | none => exact h
    | some t => exact handleChallengeComplete_inRange s t challengeData ht h
  | completePlace placeIndex => exact handleCompletePlace_inRange s placeIndex h
  | uncompletePlace placeIndex => exact h
  | closeModal => exact h
  | changeRoute => exact h

theorem run_inRange (events : List Event) (s : State) (h : CursorInRange s) :
    CursorInRange (run s events) := by
  induction events generalizing s with
  | nil => exact h
  | cons e es ih => exact ih (step s e) (step_inRange s e h)

theorem foldl_setAdd_nil (indices : List Int) :
    indices.foldl setAdd [] = indices.reverse.dedup.reverse := by
  induction indices using List.reverseRecOn with
  | nil => rfl
  | append_singleton l x ih =>
    rw [List.foldl_append, List.foldl_cons, List.foldl_nil, ih, List.reverse_append,
      List.reverse_singleton, List.singleton_append]
    unfold setAdd
    by_cases h : x ∈ l
    · rw [if_pos (by simpa using h), List.dedup_cons_of_mem (by simpa using h)]
    · rw [if_neg (by simpa using h), List.dedup_cons_of_not_mem (by simpa using h),
        List.reverse_cons]

theorem foldl_handleCompletePlace (indices : List Int) (s : State) :
    (indices.foldl handleCompletePlace s).route = s.route ∧
      (indices.foldl handleCompletePlace s).completedPlaces =
        indices.foldl setAdd s.completedPlaces := by
  induction indices generalizing s with
  | nil => exact ⟨rfl, rfl⟩
  | cons i rest ih =>
    obtain ⟨h1, h2⟩ := ih (handleCompletePlace s i)
    exact ⟨h1, h2⟩

theorem placeAt_of_valid (places : List Place) (i : Int)
    (h : 0 ≤ i ∧ i < (places.length : Int)) :
    ∃ p, p ∈ places ∧ placeAt places i = some p := by
  have hlt : i.toNat < places.length := by omega
  refine ⟨places[i.toNat], List.getElem_mem hlt, ?_⟩
  unfold placeAt
  rw [if_pos h.1]
  exact List.getElem?_eq_getElem hlt

theorem log_quotient : Int.log 2 |(23 / 40 : ℚ)| = -1 := by
  rw [abs_of_pos (by norm_num)]
  rw [Int.log_of_right_le_one _ (by norm_num)]
  have h1 : ⌈((23 / 40 : ℚ))⁻¹⌉₊ = 2 := by
    rw [Nat.ceil_eq_iff (by norm_num)]
    norm_num
  rw [h1]
  have h2 : Nat.clog 2 2 = 1 := by
    rw [Nat.clog_of_two_le (by norm_num) (by norm_num)]
    simp
  rw [h2]
  rfl

theorem ofRat_quotient :
    JSNumber.ofRat (23 / 40) = JSNumber.fin (2589569785738035 / 4503599627370496) := by
  unfold JSNumber.ofRat
  rw [if_neg (by norm_num)]
  simp only [log_quotient]
  have hf : ⌊(23 / 40 : ℚ) / 2 ^ (max (-1 : ℤ) (-1022) - 52)⌋ = 5179139571476070 := by
    rw [Int.floor_eq_iff]
    norm_num
  unfold JSNumber.roundTiesToEven
  simp only [hf]
  norm_num
  intro h
  rw [abs_of_pos (by norm_num)] at h
  norm_num at h

theorem log_product :
    Int.log 2 |(2589569785738035 / 4503599627370496 * 100 : ℚ)| = 5 := by
  rw [abs_of_pos (by norm_num)]
  rw [Int.log_of_one_le_right _ (by norm_num)]
  have h1 : ⌊(2589569785738035 / 4503599627370496 * 100 : ℚ)⌋₊ = 57 := by
    rw [Nat.floor_eq_iff (by norm_num)]
    norm_num
  rw [h1]
  have h2 : Nat.log 2 57 = 5 := by
    simp [Nat.log]
  rw [h2]
  rfl

theorem ofRat_product :
    JSNumber.ofRat (2589569785738035 / 4503599627370496 * 100) =
      JSNumber.fin (8092405580431359 / 140737488355328) := by
  unfold JSNumber.ofRat
  rw [if_neg (by norm_num)]
  simp only [log_product]
  have hf :
      ⌊(2589569785738035 / 4503599627370496 * 100 : ℚ) / 2 ^ (max (5 : ℤ) (-1022) - 52)⌋ =
        8092405580431359 := by
    rw [Int.floor_eq_iff]
    norm_num
  unfold JSNumber.roundTiesToEven
  simp only [hf]
  norm_num
  intro h
  rw [abs_of_pos (by norm_num)] at h
  norm_num at h

theorem initialState_inRange : CursorInRange initialState := by
  intro r hr
  cases hr

/-! ## Cursor advancement -/

/-- Claim C1. In a state with a route of `n` places, `handleCompletePlace(i)` leaves the
cursor at `currentPlaceIndex + 1` when `i` is the cursor and the cursor is below `n - 1`,
and at its old value in every other case. This holds for every cursor and every index,
so in particular for `n >= 1`, a cursor in `[0, n-1]` and a valid index `i`. -/
theorem handleCompletePlace_currentIndex (s : State) (r : Route) (i : Int)
    (hr : s.route = some r) :
    (handleCompletePlace s i).currentPlaceIndex =
      if i = s.currentPlaceIndex ∧ s.currentPlaceIndex < (r.places.length : Int) - 1
      then s.currentPlaceIndex + 1 else s.currentPlaceIndex := by
  rw [handleCompletePlace_cursor]
  by_cases h1 : i = s.currentPlaceIndex
  · by_cases h2 : s.currentPlaceIndex < (r.places.length : Int) - 1
    · have h3 : ∃ r1, s.route = some r1 ∧ i < (r1.places.length : Int) - 1 :=
        ⟨r, hr, h1 ▸ h2⟩
      rw [if_pos ⟨h1, h3⟩, if_pos ⟨h1, h2⟩, h1]
    · have h3 : ¬ (i = s.currentPlaceIndex ∧
          ∃ r1, s.route = some r1 ∧ i < (r1.places.length : Int) - 1) := by
        rintro ⟨_, r1, hr1, hlt⟩
        rw [hr] at hr1
        cases hr1
        exact h2 (h1 ▸ hlt)
      rw [if_neg h3, if_neg (fun h => h2 h.2)]
  · rw [if_neg (fun h => h1 h.1), if_neg (fun h => h1 h.1)]

/-- Witness of C1: on the sample route, completing place `0` at cursor `0` moves the
cursor to `1`. -/
theorem handleCompletePlace_currentIndex_witness :
    (handleCompletePlace sampleStart 0).currentPlaceIndex = 1 :=
  (handleCompletePlace_currentIndex sampleStart sampleRoute 0 rfl).trans (by decide)

/-! ## The cursor invariant -/

/-- Claim C2. The cursor invariant `0 <= currentPlaceIndex < route.places.length` for
non-empty routes holds after `handleRouteSelect` and after `handleGenerateRoute`, is kept
by `handleCompletePlace` and `handleUncompletePlace` for every index and by
`handleChallengeComplete` for every result, and holds in every state reached from the
initial state by any sequence of events. -/
theorem cursorInRange_invariant :
    (∀ (s : State) (r : Route), r.places ≠ [] →
      (handleRouteSelect s r).route = some r ∧
        0 ≤ (handleRouteSelect s r).currentPlaceIndex ∧
        (handleRouteSelect s r).currentPlaceIndex < (r.places.length : Int)) ∧
    (∀ (s : State) (places : List Place), places ≠ [] →
      (handleGenerateRoute s (some places)).route = some { places := places } ∧
        0 ≤ (handleGenerateRoute s (some places)).currentPlaceIndex ∧
        (handleGenerateRoute s (some places)).currentPlaceIndex < (places.length : Int)) ∧
    (∀ (s : State) (i : Int), CursorInRange s → CursorInRange (handleCompletePlace s i)) ∧
    (∀ (s : State) (i : Int), CursorInRange s → CursorInRange (handleUncompletePlace s i)) ∧
    (∀ (s t : State) (challengeData : ChallengeData),
      handleChallengeComplete s challengeData = some t → CursorInRange s →
        CursorInRange t) ∧
    (∀ (events : List Event) (r : Route),
      (run initialState events).route = some r → r.places ≠ [] →
        0 ≤ (run initialState events).currentPlaceIndex ∧
          (run initialState events).currentPlaceIndex < (r.places.length : Int)) := by
  refine ⟨?_, ?_, ?_, ?_, ?_, ?_⟩
  · intro s r hne
    exact ⟨rfl, handleRouteSelect_inRange s r r rfl hne⟩
  · intro s places hne
    exact ⟨rfl, handleGenerateRoute_some_inRange s places { places := places } rfl hne⟩
  · exact fun s i h => handleCompletePlace_inRange s i h
  · exact fun s i h => handleUncompletePlace_inRange s i h
  · exact fun s t d ht h => handleChallengeComplete_inRange s t d ht h
  · exact fun events r hr hne => run_inRange events initialState initialState_inRange r hr hne

/-- Witness of C2: after selecting the sample route and completing its three places in
order, the cursor is in `[0, 3)`. -/
theorem cursorInRange_invariant_witness :
    0 ≤ (run initialState [Event.routeSelect sampleRoute, Event.completePlace 0,
        Event.completePlace 1, Event.completePlace 2]).currentPlaceIndex ∧
      (run initialState [Event.routeSelect sampleRoute, Event.completePlace 0,
        Event.completePlace 1, Event.completePlace 2]).currentPlaceIndex < 3 :=
  cursorInRange_invariant.2.2.2.2.2
    [Event.routeSelect sampleRoute, Event.completePlace 0, Event.completePlace 1,
      Event.completePlace 2] sampleRoute rfl (by decide)

/-! ## Completing and uncompleting -/

/-- Counterexample to C3: on the sample route with place `0` already completed,
`handleCompletePlace(0)` followed by `handleUncompletePlace(0)` ends with an empty
completed set, not with the set `{0}` it started from. -/
theorem complete_uncomplete_not_restored :
    (handleCompletePlace sampleStart 0).completedPlaces = [0] ∧
      (handleUncompletePlace
        (handleCompletePlace (handleCompletePlace sampleStart 0) 0) 0).completedPlaces = [] ∧
      (handleUncompletePlace
        (handleCompletePlace (handleCompletePlace sampleStart 0) 0) 0).completedPlaces ≠
        (handleCompletePlace sampleStart 0).completedPlaces := by
  decide

/-- Claim C3, amended. For every state and every index `i` that is not in the completed
set, `handleCompletePlace(i)` followed by `handleUncompletePlace(i)` gives back the
completed set of before; when `i` was already completed, the result is that set
without `i`. -/
theorem complete_uncomplete_completed (s : State) (i : Int) :
    (i ∉ s.completedPlaces →
      (handleUncompletePlace (handleCompletePlace s i) i).completedPlaces =
        s.completedPlaces) ∧
    (i ∈ s.completedPlaces →
      ∀ j, j ∈ (handleUncompletePlace (handleCompletePlace s i) i).completedPlaces ↔
        j ∈ s.completedPlaces ∧ j ≠ i) := by
  constructor
  · intro h
    exact setDelete_setAdd_of_not_mem s.completedPlaces i h
  · intro h j
    show j ∈ setDelete (setAdd s.completedPlaces i) i ↔ _
    rw [mem_setDelete, mem_setAdd]
    constructor
    · rintro ⟨h1 | h1, h2⟩
      · exact ⟨h1, h2⟩
      · exact absurd h1 h2
    · rintro ⟨h1, h2⟩
      exact ⟨Or.inl h1, h2⟩

/-- Witness of C3 amended: on the freshly selected sample route, completing and then
uncompleting place `1` leaves the completed set empty, as it was. -/
theorem complete_uncomplete_completed_witness :
    (1 : Int) ∉ sampleStart.completedPlaces ∧
      (handleUncompletePlace (handleCompletePlace sampleStart 1) 1).completedPlaces =
        sampleStart.completedPlaces :=
  ⟨by decide, (complete_uncomplete_completed sampleStart 1).1 (by decide)⟩

/-! ## Indices out of range -/

/-- Counterexample to C9: on the sample route of three places, `handleCompletePlace(5)`
and `handleCompletePlace(-1)` do not fail and put `5` and `-1` in the completed set. -/
theorem complete_out_of_range_added :
    sampleStart.route = some sampleRoute ∧ sampleRoute.places.length = 3 ∧
      (handleCompletePlace sampleStart 5).completedPlaces = [5] ∧
      (handleCompletePlace sampleStart (-1)).completedPlaces = [-1] :=
  ⟨rfl, rfl, by decide, by decide⟩

/-- Claim C9, amended. `handleCompletePlace` checks no range: for every state and every
index, also one below `0` or at least `route.places.length`, it returns a state whose
completed set holds the index. The inclusion of the completed set in
`{0 .. route.places.length - 1}` is kept by `handleCompletePlace(i)` when
`0 <= i < route.places.length`, and is lost when `i` is outside that range. -/
theorem complete_no_range_check (s : State) (r : Route) (i : Int) (hr : s.route = some r)
    (hsub : ∀ j ∈ s.completedPlaces, 0 ≤ j ∧ j < (r.places.length : Int)) :
    i ∈ (handleCompletePlace s i).completedPlaces ∧
      (handleCompletePlace s i).route = some r ∧
      ((0 ≤ i ∧ i < (r.places.length : Int)) ↔
        ∀ j ∈ (handleCompletePlace s i).completedPlaces,
          0 ≤ j ∧ j < (r.places.length : Int)) := by
  have hmem : ∀ j, j ∈ (handleCompletePlace s i).completedPlaces ↔
      j ∈ s.completedPlaces ∨ j = i := fun j => mem_setAdd s.completedPlaces i j
  refine ⟨(hmem i).2 (Or.inr rfl), hr, ?_, ?_⟩
  · intro hi j hj
    rcases (hmem j).1 hj with h | h
    · exact hsub j h
    · exact h ▸ hi
  · intro h
    exact h i ((hmem i).2 (Or.inr rfl))

/-- Witness of C9 amended, on the freshly selected sample route and the index `5`. -/
theorem complete_no_range_check_witness :
    (5 : Int) ∈ (handleCompletePlace sampleStart 5).completedPlaces ∧
      ¬ (∀ j ∈ (handleCompletePlace sampleStart 5).completedPlaces,
          0 ≤ j ∧ j < ((sampleRoute.places.length : Nat) : Int)) :=
  have h := complete_no_range_check sampleStart sampleRoute 5 rfl (by decide)
  ⟨h.1, fun hall => absurd (h.2.2.2 hall) (by decide)⟩

/-! ## Challenge completion and manual completion -/

/-- Claim C8 at its failing input: on the freshly selected sample route (cursor `0`, three
places), the challenge report for the place at index `0` and `handleCompletePlace(0)`
give the same completed set `{0}`, and the report clears the pending challenge, but
`handleCompletePlace(0)` moves the cursor to `1` while the report leaves it at `0`. -/
theorem challengeComplete_does_not_advance :
    (handleChallengeComplete sampleStart sampleChallengeData).map State.completedPlaces =
        some [0] ∧
      (handleCompletePlace sampleStart 0).completedPlaces = [0] ∧
      (handleChallengeComplete sampleStart sampleChallengeData).map State.challengePlace =
        some none ∧
      (handleChallengeComplete sampleStart sampleChallengeData).map State.showChallengeModal =
        some false ∧
      (handleChallengeComplete sampleStart sampleChallengeData).map State.currentPlaceIndex =
        some 0 ∧
      (handleCompletePlace sampleStart 0).currentPlaceIndex = 1 := by
  decide

/-! ## The list of completed places -/

/-- Counterexample to C5: on the sample route, `handleCompletePlace(2)` and then
`handleCompletePlace(0)` make `getCompletedPlaces` return the place at index `2` before
the place at index `0`, not the two in the order of the route. -/
theorem getCompletedPlaces_not_route_order :
    getCompletedPlaces (handleCompletePlace (handleCompletePlace sampleStart 2) 0) =
        [some palacioReal, some puertaDelSol] ∧
      getCompletedPlaces (handleCompletePlace (handleCompletePlace sampleStart 2) 0) ≠
        [some puertaDelSol, some palacioReal] := by
  refine ⟨rfl, ?_⟩
  intro h
  have h1 := congrArg (fun l => l.map (fun p => Option.bind p Place.name)) h
  revert h1
  decide

/-- Claim C5, amended. For every route and every sequence of `handleCompletePlace` calls
on valid indices after the route was selected, `getCompletedPlaces` returns exactly the
places of the route whose indices were completed, each once, in the order in which the
indices were first completed: the sequence of indices with every repetition after the
first dropped. When no index is repeated, that is the sequence of the calls. -/
theorem getCompletedPlaces_insertion_order (s0 : State) (r : Route) (indices : List Int)
    (hvalid : ∀ i ∈ indices, 0 ≤ i ∧ i < (r.places.length : Int)) :
    getCompletedPlaces (indices.foldl handleCompletePlace (handleRouteSelect s0 r)) =
        indices.reverse.dedup.reverse.map (placeAt r.places) ∧
      (∀ x ∈ getCompletedPlaces (indices.foldl handleCompletePlace (handleRouteSelect s0 r)),
        ∃ p, p ∈ r.places ∧ x = some p) ∧
      (indices.Nodup →
        getCompletedPlaces (indices.foldl handleCompletePlace (handleRouteSelect s0 r)) =
          indices.map (placeAt r.places)) := by
  obtain ⟨h1, h2⟩ := foldl_handleCompletePlace indices (handleRouteSelect s0 r)
  have h3 : (indices.foldl handleCompletePlace (handleRouteSelect s0 r)).route = some r := h1
  have h4 : (indices.foldl handleCompletePlace (handleRouteSelect s0 r)).completedPlaces =
      indices.reverse.dedup.reverse := by
    rw [h2]
    exact foldl_setAdd_nil indices
  have h5 : getCompletedPlaces (indices.foldl handleCompletePlace (handleRouteSelect s0 r)) =
      indices.reverse.dedup.reverse.map (placeAt r.places) := by
    unfold getCompletedPlaces
    rw [h3, h4]
  refine ⟨h5, ?_, ?_⟩
  · intro x hx
    rw [h5, List.mem_map] at hx
    obtain ⟨i, hi, rfl⟩ := hx
    have hi1 : i ∈ indices := by simpa using hi
    obtain ⟨p, hp, hpe⟩ := placeAt_of_valid r.places i (hvalid i hi1)
    exact ⟨p, hp, hpe⟩
  · intro hnd
    rw [h5, List.Nodup.dedup (List.nodup_reverse.mpr hnd), List.reverse_reverse]

/-- Witness of C5 amended: the indices `2, 0, 2` on the sample route. -/
theorem getCompletedPlaces_insertion_order_witness :
    getCompletedPlaces ([2, 0, 2].foldl handleCompletePlace
        (handleRouteSelect initialState sampleRoute)) =
      [some palacioReal, some puertaDelSol] :=
  (getCompletedPlaces_insertion_order initialState sampleRoute [2, 0, 2]
    (by decide)).1.trans rfl

/-! ## Progress percentage -/

/-- Claim C4 at its failing input: right after `handleRouteSelect` on a route whose list
of places is empty, `getRouteProgress` is `0 / 0 * 100` rounded, that is `NaN`, not `0`. -/
theorem getRouteProgress_empty_route (s : State) :
    (handleRouteSelect s { places := [] }).route = some { places := [] } ∧
      (handleRouteSelect s { places := [] }).completedPlaces = [] ∧
      getRouteProgress (handleRouteSelect s { places := [] }) = JSNumber.nan := by
  refine ⟨rfl, rfl, ?_⟩
  simp [getRouteProgress, handleRouteSelect, JSNumber.div, JSNumber.mul, JSNumber.round]

/-- With 23 of 40 places completed the quotient `23 / 40` and its product by `100` are
rounded to binary64, the product is `57.49999999999999`, and `getRouteProgress` is `57`;
the exact value of `100 * 23 / 40` is `57.5`, which rounds to `58`. -/
theorem getRouteProgress_23_of_40 :
    getRouteProgress sampleLongRun = JSNumber.fin 57 ∧
      JSNumber.round (JSNumber.fin (100 * 23 / 40)) = JSNumber.fin 58 := by
  constructor
  · have hlen : ((List.range 23).map Int.ofNat).length = 23 := by simp
    have hlen2 : (List.replicate 40 puertaDelSol).length = 40 := by simp
    simp only [getRouteProgress, sampleLongRun, hlen, hlen2, JSNumber.div, JSNumber.mul]
    norm_num
    rw [ofRat_quotient]
    simp only [JSNumber.mul]
    rw [ofRat_product]
    simp only [JSNumber.round]
    congr 1
    norm_num
  · simp only [JSNumber.round]
    congr 1
    norm_num

/-! ## Proximity -/

/-- Claim C6 at its failing input: a place whose latitude is the number `0`, or whose
longitude is the number `0`, is never near, whatever the user position and the distance:
the guard `!place.latitude || !place.longitude` takes `0` for a missing coordinate. -/
theorem isNearPlace_zero_coordinate (M : JSMath) (location : Option Location)
    (name : Option String) (other : Option JSNumber) :
    isNearPlace M location
        { name := name, latitude := some (JSNumber.fin 0), longitude := other } = false ∧
      isNearPlace M location
        { name := name, latitude := other, longitude := some (JSNumber.fin 0) } = false := by
  constructor
  · cases location <;> cases other <;> simp [isNearPlace, JSNumber.truthy]
  · cases location <;> cases other <;> simp [isNearPlace, JSNumber.truthy]

/-! ## Starting a challenge -/

/-- Counterexample to C7: on the freshly selected sample route with the user position
unknown, the place at index `1` is not near, and `handleStartChallenge` on it still sets
the pending challenge and opens the modal. -/
theorem handleStartChallenge_no_gate :
    sampleRoute.places[1]? = some plazaMayor ∧
      (∀ M : JSMath, isNearPlace M none plazaMayor = false) ∧
      sampleStart.challengePlace = none ∧ sampleStart.showChallengeModal = false ∧
      (handleStartChallenge sampleStart plazaMayor).challengePlace = some plazaMayor ∧
      (handleStartChallenge sampleStart plazaMayor).showChallengeModal = true :=
  ⟨rfl, fun _ => rfl, rfl, rfl, rfl, rfl⟩

/-- Claim C7, amended. `handleStartChallenge` itself sets the pending challenge for every
place, with no check. The gate is in the rendered list: a click on the challenge button
of the item at `index` changes the state only if the place at `index` is not completed
and `index` is `0` or `isNearPlace` holds for the place, and then it is
`handleStartChallenge` on that place; for an index above `0` whose place is not near it
is a no-op. On a freshly selected route of three places with the user position unknown,
the click starts the challenge of place `0` and is a no-op for places `1` and `2`. -/
theorem clickStartChallenge_gate (M : JSMath) (location : Option Location) (s : State) :
    (∀ place : Place,
      (handleStartChallenge s place).challengePlace = some place ∧
        (handleStartChallenge s place).showChallengeModal = true) ∧
    (∀ index : Nat, clickStartChallenge M location s index ≠ s →
      ∃ r place, s.route = some r ∧ r.places[index]? = some place ∧
        (index : Int) ∉ s.completedPlaces ∧
        (index = 0 ∨ isNearPlace M location place = true) ∧
        clickStartChallenge M location s index = handleStartChallenge s place) ∧
    (∀ (index : Nat) (r : Route) (place : Place), s.route = some r →
      r.places[index]? = some place → 0 < index → isNearPlace M location place = false →
        clickStartChallenge M location s index = s) ∧
    (∀ p0 p1 p2 : Place,
      clickStartChallenge M none (handleRouteSelect s { places := [p0, p1, p2] }) 0 =
          handleStartChallenge (handleRouteSelect s { places := [p0, p1, p2] }) p0 ∧
        clickStartChallenge M none (handleRouteSelect s { places := [p0, p1, p2] }) 1 =
          handleRouteSelect s { places := [p0, p1, p2] } ∧
        clickStartChallenge M none (handleRouteSelect s { places := [p0, p1, p2] }) 2 =
          handleRouteSelect s { places := [p0, p1, p2] }) := by
  refine ⟨fun place => ⟨rfl, rfl⟩, ?_, ?_, ?_⟩
  · intro index hne
    unfold clickStartChallenge at hne ⊢
    cases hr : s.route with
    | none => simp [hr] at hne
    | some r =>
      simp only [hr] at hne ⊢
      by_cases hsel : s.showRouteSelector = true
      · simp [hsel] at hne
      · simp only [hsel, Bool.false_eq_true, if_false] at hne ⊢
        cases hp : r.places[index]? with
        | none => simp [hp] at hne
        | some place =>
          simp only [hp] at hne ⊢
          by_cases hb : challengeButtonShown M location s index place = true
          · refine ⟨r, place, rfl, hp, ?_, ?_, by simp [hb]⟩
            · intro hmem
              simp [challengeButtonShown, hmem] at hb
            · by_cases h0 : index = 0
              · exact Or.inl h0
              · right
                simp only [challengeButtonShown, h0, decide_False, Bool.false_and,
                  Bool.false_or, Bool.and_eq_true] at hb
                exact hb.2
          · simp [hb] at hne
  · intro index r place hr hp hpos hnear
    unfold clickStartChallenge
    have h0 : index ≠ 0 := by omega
    have hb : challengeButtonShown M location s index place = false := by
      simp [challengeButtonShown, h0, hnear]
    simp [hr, hp, hb]
  · intro p0 p1 p2
    refine ⟨?_, ?_, ?_⟩ <;>
      simp [clickStartChallenge, handleRouteSelect, challengeButtonShown, isNearPlace]

/-- Witness of C7 amended: on the freshly selected sample route with the user position
unknown, the click on the button of place `0` is `handleStartChallenge` on it and the
click on the button of place `1` changes nothing. -/
theorem clickStartChallenge_gate_witness :
    (∀ M : JSMath,
      clickStartChallenge M none sampleStart 0 =
        handleStartChallenge sampleStart puertaDelSol) ∧
    (∀ M : JSMath, clickStartChallenge M none sampleStart 1 = sampleStart) :=
  ⟨fun M => ((clickStartChallenge_gate M none initialState).2.2.2 puertaDelSol plazaMayor
      palacioReal).1,
    fun M => (clickStartChallenge_gate M none sampleStart).2.2.1 1 sampleRoute plazaMayor
      rfl rfl (by decide) rfl⟩

theorem ofRat_zero : JSNumber.ofRat 0 = JSNumber.fin 0 := by
  simp [JSNumber.ofRat]

theorem roundTiesToEven_bounds (x : ℚ) :
    x - 1 ≤ (JSNumber.roundTiesToEven x : ℚ) ∧ (JSNumber.roundTiesToEven x : ℚ) ≤ x + 1 := by
  have h1 : (⌊x⌋ : ℚ) ≤ x := Int.floor_le x
  have h2 : x < (⌊x⌋ : ℚ) + 1 := Int.lt_floor_add_one x
  unfold JSNumber.roundTiesToEven
  simp only
  split_ifs <;> push_cast <;> constructor <;> linarith

theorem ofRat_one : JSNumber.ofRat 1 = JSNumber.fin 1 := by
  unfold JSNumber.ofRat
  rw [if_neg (by norm_num)]
  simp only [abs_one, Int.log_one_right]
  have hf : ⌊(1 : ℚ) / 2 ^ (max (0 : ℤ) (-1022) - 52)⌋ = 4503599627370496 := by
    rw [Int.floor_eq_iff]
    norm_num
  unfold JSNumber.roundTiesToEven
  simp only [hf]
  norm_num

theorem floor_le_roundTiesToEven (x : ℚ) : ⌊x⌋ ≤ JSNumber.roundTiesToEven x := by
  unfold JSNumber.roundTiesToEven
  simp only
  split_ifs <;> omega

theorem ofRat_fin_of_abs_le (q : ℚ) (h : |q| ≤ (2 : ℚ) ^ (1000 : ℤ)) :
    ∃ r, JSNumber.ofRat q = JSNumber.fin r ∧ |r| ≤ |q| + (2 : ℚ) ^ (948 : ℤ) := by
  by_cases hq : q = 0
  · refine ⟨0, by simp [JSNumber.ofRat, hq], ?_⟩
    rw [abs_zero]
    positivity
  · have hpos : 0 < |q| := abs_pos.mpr hq
    have hL : Int.log 2 |q| < 1001 := by
      rw [← Int.lt_zpow_iff_log_lt (by norm_num) hpos]
      refine lt_of_le_of_lt h ?_
      norm_num
    have he : max (Int.log 2 |q|) (-1022) - 52 ≤ 948 := by
      have : max (Int.log 2 |q|) (-1022) ≤ 1000 := max_le (by omega) (by norm_num)
      omega
    have hulp0 : (0 : ℚ) < 2 ^ (max (Int.log 2 |q|) (-1022) - 52) := by positivity
    have hulp : (2 : ℚ) ^ (max (Int.log 2 |q|) (-1022) - 52) ≤ 2 ^ (948 : ℤ) :=
      zpow_le_zpow_right₀ (by norm_num) he
    obtain ⟨hb1, hb2⟩ :=
      roundTiesToEven_bounds (q / 2 ^ (max (Int.log 2 |q|) (-1022) - 52))
    have hr1 : q - 2 ^ (max (Int.log 2 |q|) (-1022) - 52) ≤
        (JSNumber.roundTiesToEven (q / 2 ^ (max (Int.log 2 |q|) (-1022) - 52)) : ℚ) *
          2 ^ (max (Int.log 2 |q|) (-1022) - 52) := by
      have := mul_le_mul_of_nonneg_right hb1 hulp0.le
      rw [sub_mul, div_mul_cancel₀ _ hulp0.ne', one_mul] at this
      exact this
    have hr2 : (JSNumber.roundTiesToEven (q / 2 ^ (max (Int.log 2 |q|) (-1022) - 52)) : ℚ) *
          2 ^ (max (Int.log 2 |q|) (-1022) - 52) ≤
        q + 2 ^ (max (Int.log 2 |q|) (-1022) - 52) := by
      have := mul_le_mul_of_nonneg_right hb2 hulp0.le
      rw [add_mul, div_mul_cancel₀ _ hulp0.ne', one_mul] at this
      exact this
    have habs : |(JSNumber.roundTiesToEven (q / 2 ^ (max (Int.log 2 |q|) (-1022) - 52)) : ℚ) *
          2 ^ (max (Int.log 2 |q|) (-1022) - 52)| ≤ |q| + 2 ^ (948 : ℤ) := by
      rw [abs_le]
      have h3 := neg_abs_le q
      have h4 := le_abs_self q
      constructor <;> linarith
    refine ⟨_, ?_, habs⟩
    unfold JSNumber.ofRat
    rw [if_neg hq]
    simp only
    rw [if_neg]
    intro hbig
    have h5 : |q| + (2 : ℚ) ^ (948 : ℤ) < 2 ^ (1024 : ℤ) := by
      have h6 : (2 : ℚ) ^ (1000 : ℤ) + 2 ^ (948 : ℤ) < 2 ^ (1024 : ℤ) := by norm_num
      linarith
    linarith

theorem two_pow_mul (L : ℤ) : ((2 ^ 52 : ℤ) : ℚ) * 2 ^ (L - 52) = 2 ^ L := by
  have h : ((2 ^ 52 : ℤ) : ℚ) = (2 : ℚ) ^ (52 : ℤ) := by norm_num
  rw [h, ← zpow_add₀ (by norm_num)]
  congr 1
  omega

theorem ofRat_posInf (q : ℚ) (h : (2 : ℚ) ^ (1024 : ℤ) ≤ q) :
    JSNumber.ofRat q = JSNumber.posInf := by
  have hq0 : 0 < q := lt_of_lt_of_le (by positivity) h
  have habs : |q| = q := abs_of_pos hq0
  have hL : (1024 : ℤ) ≤ Int.log 2 q := by
    rw [← Int.zpow_le_iff_le_log (by norm_num) hq0]
    exact_mod_cast h
  have hmax : max (Int.log 2 q) (-1022) = Int.log 2 q := max_eq_left (by omega)
  have hlog : (2 : ℚ) ^ Int.log 2 q ≤ q := by
    have := Int.zpow_log_le_self (b := 2) (r := q) (by norm_num) hq0
    exact_mod_cast this
  have hulp0 : (0 : ℚ) < 2 ^ (Int.log 2 q - 52) := by positivity
  have hx : ((2 ^ 52 : ℤ) : ℚ) ≤ q / 2 ^ (Int.log 2 q - 52) := by
    rw [le_div_iff₀ hulp0]
    rw [two_pow_mul]
    exact hlog
  have hfl : (2 ^ 52 : ℤ) ≤ JSNumber.roundTiesToEven (q / 2 ^ (Int.log 2 q - 52)) :=
    le_trans (Int.le_floor.mpr hx) (floor_le_roundTiesToEven _)
  have hr : (2 : ℚ) ^ (1024 : ℤ) ≤
      (JSNumber.roundTiesToEven (q / 2 ^ (Int.log 2 q - 52)) : ℚ) *
        2 ^ (Int.log 2 q - 52) := by
    have h1 : ((2 ^ 52 : ℤ) : ℚ) ≤ (JSNumber.roundTiesToEven (q / 2 ^ (Int.log 2 q - 52)) : ℚ) := by
      exact_mod_cast hfl
    have h2 := mul_le_mul_of_nonneg_right h1 hulp0.le
    rw [two_pow_mul] at h2
    have h4 : (2 : ℚ) ^ (1024 : ℤ) ≤ 2 ^ Int.log 2 q := zpow_le_zpow_right₀ (by norm_num) hL
    linarith
  unfold JSNumber.ofRat
  rw [if_neg hq0.ne']
  simp only [habs, hmax]
  rw [if_pos (le_trans hr (le_abs_self _)), if_pos hq0]


theorem tableMath_specialValues : SpecialValues tableMath where
  pi := rfl
  sin_zero := by simp [tableMath]
  cos_fin := fun x => ⟨1, by simp [tableMath], by norm_num⟩
  cos_posInf := rfl
  cos_negInf := rfl
  sqrt_zero := by simp [tableMath]
  sqrt_one := by simp [tableMath]
  sqrt_nan := rfl
  atan2_zero_one := by simp [tableMath]
  atan2_nan := rfl

theorem mul_zero_fin (a : ℚ) :
    JSNumber.mul (JSNumber.fin 0) (JSNumber.fin a) = JSNumber.fin 0 := by
  simp [JSNumber.mul, ofRat_zero]

theorem mul_fin_zero (a : ℚ) :
    JSNumber.mul (JSNumber.fin a) (JSNumber.fin 0) = JSNumber.fin 0 := by
  simp [JSNumber.mul, ofRat_zero]

theorem sub_self_fin (a : ℚ) :
    JSNumber.sub (JSNumber.fin a) (JSNumber.fin a) = JSNumber.fin 0 := by
  simp [JSNumber.sub, JSNumber.neg, JSNumber.add, ofRat_zero]

theorem div_zero_fin (b : ℚ) (hb : b ≠ 0) :
    JSNumber.div (JSNumber.fin 0) (JSNumber.fin b) = JSNumber.fin 0 := by
  simp [JSNumber.div, hb, ofRat_zero]

theorem calculateDistance_of_finite_radians (M : JSMath) (hM : SpecialValues M)
    (lat lon x : ℚ)
    (hx : JSNumber.div (JSNumber.mul (JSNumber.fin lat) M.PI) (JSNumber.fin 180) =
      JSNumber.fin x) :
    calculateDistance M (JSNumber.fin lat) (JSNumber.fin lon) (JSNumber.fin lat)
      (JSNumber.fin lon) = JSNumber.fin 0 := by
  obtain ⟨c, hc, hc1⟩ := hM.cos_fin x
  have hcc : |c * c| ≤ (2 : ℚ) ^ (1000 : ℤ) := by
    have h1 : |c * c| ≤ 1 := by
      rw [abs_mul]
      exact mul_le_one₀ hc1 (abs_nonneg c) hc1
    have h2 : (1 : ℚ) ≤ 2 ^ (1000 : ℤ) := by norm_num
    linarith
  obtain ⟨r, hr, _⟩ := ofRat_fin_of_abs_le (c * c) hcc
  have hpi : M.PI = JSNumber.fin (884279719003555 / 281474976710656) := hM.pi
  have hzero : JSNumber.div
      (JSNumber.div (JSNumber.mul (JSNumber.fin 0) M.PI) (JSNumber.fin 180))
      (JSNumber.fin 2) = JSNumber.fin 0 := by
    rw [hpi, mul_zero_fin, div_zero_fin _ (by norm_num), div_zero_fin _ (by norm_num)]
  have hcos : JSNumber.mul (JSNumber.fin c) (JSNumber.fin c) = JSNumber.fin r := hr
  have hone : JSNumber.sub (JSNumber.fin 1) (JSNumber.fin 0) = JSNumber.fin 1 := by
    simp [JSNumber.sub, JSNumber.neg, JSNumber.add, ofRat_one]
  have hadd : JSNumber.add (JSNumber.fin 0) (JSNumber.fin 0) = JSNumber.fin 0 := by
    simp [JSNumber.add, ofRat_zero]
  unfold calculateDistance
  simp only [sub_self_fin, hzero, hM.sin_zero, hx, hc, hcos, mul_fin_zero, hadd,
    hM.sqrt_zero, hone, hM.sqrt_one, hM.atan2_zero_one]

theorem add_nan_right (x : JSNumber) : JSNumber.add x JSNumber.nan = JSNumber.nan := by
  cases x <;> rfl

theorem mul_nan_left (x : JSNumber) : JSNumber.mul JSNumber.nan x = JSNumber.nan := by
  cases x <;> rfl

theorem mul_nan_right (x : JSNumber) : JSNumber.mul x JSNumber.nan = JSNumber.nan := by
  cases x <;> rfl

theorem calculateDistance_of_infinite_radians (M : JSMath) (hM : SpecialValues M)
    (lat lon : ℚ)
    (hx : JSNumber.div (JSNumber.mul (JSNumber.fin lat) M.PI) (JSNumber.fin 180) =
        JSNumber.posInf ∨
      JSNumber.div (JSNumber.mul (JSNumber.fin lat) M.PI) (JSNumber.fin 180) =
        JSNumber.negInf) :
    calculateDistance M (JSNumber.fin lat) (JSNumber.fin lon) (JSNumber.fin lat)
      (JSNumber.fin lon) = JSNumber.nan := by
  unfold calculateDistance
  rcases hx with hx | hx <;>
    simp only [hx, hM.cos_posInf, hM.cos_negInf, mul_nan_left, mul_nan_right, add_nan_right,
      JSNumber.sub, JSNumber.neg, hM.sqrt_nan, hM.atan2_nan]

theorem radians_finite (lat : ℚ) (h : |lat| ≤ 10 ^ 300) :
    ∃ x, JSNumber.div (JSNumber.mul (JSNumber.fin lat) ecmaPI) (JSNumber.fin 180) =
      JSNumber.fin x := by
  have h0 : (10 : ℚ) ^ 300 * (884279719003555 / 281474976710656) ≤ 2 ^ (999 : ℤ) := by
    norm_num
  have h1 : |lat * (884279719003555 / 281474976710656)| ≤ (2 : ℚ) ^ (999 : ℤ) := by
    rw [abs_mul, abs_of_pos (by norm_num : (0 : ℚ) < 884279719003555 / 281474976710656)]
    have := mul_le_mul_of_nonneg_right h
      (by norm_num : (0 : ℚ) ≤ 884279719003555 / 281474976710656)
    linarith
  have h2 : (2 : ℚ) ^ (999 : ℤ) ≤ 2 ^ (1000 : ℤ) := by norm_num
  obtain ⟨r, hr, hrb⟩ := ofRat_fin_of_abs_le _ (le_trans h1 h2)
  have h3 : |r / 180| ≤ (2 : ℚ) ^ (1000 : ℤ) := by
    rw [abs_div, abs_of_pos (by norm_num : (0 : ℚ) < 180)]
    have h4 : (2 : ℚ) ^ (999 : ℤ) + 2 ^ (948 : ℤ) ≤ 2 ^ (1000 : ℤ) * 180 := by norm_num
    rw [div_le_iff₀ (by norm_num)]
    linarith
  obtain ⟨t, ht, _⟩ := ofRat_fin_of_abs_le _ h3
  refine ⟨t, ?_⟩
  have hm : JSNumber.mul (JSNumber.fin lat) ecmaPI = JSNumber.fin r := hr
  rw [hm]
  simp only [JSNumber.div]
  rw [if_neg (by norm_num)]
  exact ht


/-! ## Distance between identical coordinates -/

/-- Counterexample to C10: the latitude `2 ^ 1023` (about `8.99e307`) is finite, but
`lat * Math.PI` overflows to `Infinity`, its cosine is `NaN`, and
`calculateDistance(lat, 0, lat, 0)` is `NaN`, not `0`, for every `Math` object with the
special values. -/
theorem calculateDistance_self_nan :
    SpecialValues tableMath ∧
      (∀ M : JSMath, SpecialValues M →
        calculateDistance M (JSNumber.fin (2 ^ 1023)) (JSNumber.fin 0)
          (JSNumber.fin (2 ^ 1023)) (JSNumber.fin 0) = JSNumber.nan) := by
  refine ⟨tableMath_specialValues, fun M hM => ?_⟩
  refine calculateDistance_of_infinite_radians M hM _ _ (Or.inl ?_)
  have hpi : M.PI = JSNumber.fin (884279719003555 / 281474976710656) := hM.pi
  have hmul : JSNumber.mul (JSNumber.fin (2 ^ 1023))
      (JSNumber.fin (884279719003555 / 281474976710656)) = JSNumber.posInf :=
    ofRat_posInf _ (by norm_num)
  rw [hpi, hmul]
  simp [JSNumber.div]

/-- Claim C10, amended. Let `Math` have the special values. For every coordinate
`(lat, lon)` with finite latitude and longitude whose latitude in radians,
`lat * Math.PI / 180`, is finite, `calculateDistance(lat, lon, lat, lon)` is `0`, hence not
`NaN`; that is so for every latitude of magnitude at most `1e300`. When the latitude in
radians is an infinity, the result is `NaN`. -/
theorem calculateDistance_self (M : JSMath) (hM : SpecialValues M) (lat lon : ℚ) :
    ((∃ x, JSNumber.div (JSNumber.mul (JSNumber.fin lat) M.PI) (JSNumber.fin 180) =
        JSNumber.fin x) →
      calculateDistance M (JSNumber.fin lat) (JSNumber.fin lon) (JSNumber.fin lat)
        (JSNumber.fin lon) = JSNumber.fin 0) ∧
    (|lat| ≤ 10 ^ 300 →
      calculateDistance M (JSNumber.fin lat) (JSNumber.fin lon) (JSNumber.fin lat)
        (JSNumber.fin lon) = JSNumber.fin 0) ∧
    ((JSNumber.div (JSNumber.mul (JSNumber.fin lat) M.PI) (JSNumber.fin 180) =
          JSNumber.posInf ∨
        JSNumber.div (JSNumber.mul (JSNumber.fin lat) M.PI) (JSNumber.fin 180) =
          JSNumber.negInf) →
      calculateDistance M (JSNumber.fin lat) (JSNumber.fin lon) (JSNumber.fin lat)
        (JSNumber.fin lon) = JSNumber.nan) := by
  refine ⟨?_, ?_, ?_⟩
  · rintro ⟨x, hx⟩
    exact calculateDistance_of_finite_radians M hM lat lon x hx
  · intro h
    obtain ⟨x, hx⟩ := radians_finite lat h
    rw [← hM.pi] at hx
    exact calculateDistance_of_finite_radians M hM lat lon x hx
  · exact calculateDistance_of_infinite_radians M hM lat lon

/-- Witness of C10 amended: the coordinate `(40.4168, -3.7038)`. -/
theorem calculateDistance_self_witness :
    calculateDistance tableMath (JSNumber.fin latSol) (JSNumber.fin lonSol)
      (JSNumber.fin latSol) (JSNumber.fin lonSol) = JSNumber.fin 0 :=
  (calculateDistance_self tableMath tableMath_specialValues latSol lonSol).2.1
    (by rw [abs_le]; constructor <;> norm_num [latSol])

end RouteManager
